import Mathlib

/-!
Verification development for the Herbarium runtime (plantarium-platform/herbarium-go).
The Go source is shallowly embedded: the in-memory catalog (HerbariumDB) becomes an
association list, repository methods become pure functions returning Except, the
HAProxy client and OS interactions are driven by explicit oracles recording an event
trace, and manager operations (RegisterStem, UnregisterStem, StartLeaf, StopLeaf,
StartGraftNodeLeaf, the graft request handler) are direct translations of the Go
control flow.
-/

namespace Herbarium

/-- Status of a leaf instance, from storage models (LeafStatus). -/
inductive LeafStatus where
  | starting
  | running
  | stopping
  | unknown
deriving DecidableEq, Repr

/-- A running instance of a service, from pkg/models (Leaf).
The Initialized timestamp is modelled as a Nat. -/
structure Leaf where
  id : String
  pid : Nat
  haproxyServer : String
  port : Nat
  status : LeafStatus
  initialized : Nat
deriving DecidableEq, Repr

/-- Parsed per-service configuration, from pkg/models (StemConfig).
MinInstances is a Go pointer to int, modelled as Option Int. -/
structure StemConfig where
  name : String
  url : String
  command : String
  env : List (String × String)
  version : String
  minInstances : Option Int
  startMessage : Option String
deriving DecidableEq, Repr

/-- Stem kind, from pkg/models (StemType). -/
inductive StemType where
  | system
  | deployment
deriving DecidableEq, Repr

/-- A deployed service version, from pkg/models (Stem).
LeafInstances is a Go map keyed by leaf ID, modelled as an association list. -/
structure Stem where
  name : String
  type : StemType
  workingURL : String
  haproxyBackend : String
  version : String
  environment : List (String × String)
  leafInstances : List (String × Leaf)
  graftNodeLeaf : Option Leaf
  config : StemConfig
deriving DecidableEq, Repr

/-- Composite identity of a deployed service version, from internal/storage (StemKey). -/
structure StemKey where
  name : String
  version : String
deriving DecidableEq, Repr

/-- The in-memory catalog HerbariumDB.Stems, a Go map keyed by StemKey,
modelled as an association list. -/
def HerbariumDB := List (StemKey × Stem)

instance : DecidableEq HerbariumDB := by
  unfold HerbariumDB
  infer_instance

/-- Association-list lookup, modelling Go map indexing. -/
def lookupA {α β : Type} [DecidableEq α] : List (α × β) → α → Option β
  | [], _ => none
  | (k, v) :: rest, a => if k = a then some v else lookupA rest a

/-- Association-list update in place: replaces the value stored at an existing key,
modelling mutation of a map entry through a pointer. Keys are unchanged. -/
def updateA {α β : Type} [DecidableEq α] : List (α × β) → α → β → List (α × β)
  | [], _, _ => []
  | (k, v) :: rest, a, b => if k = a then (k, b) :: rest else (k, v) :: updateA rest a b

/-- Association-list removal, modelling Go map delete. -/
def removeA {α β : Type} [DecidableEq α] : List (α × β) → α → List (α × β)
  | [], _ => []
  | (k, v) :: rest, a => if k = a then removeA rest a else (k, v) :: removeA rest a

/-- StemRepository.FindStem (internal/storage/repos/stem_repository.go):
lookup by composite key, not-found error when absent. -/
def findStem (db : HerbariumDB) (key : StemKey) : Except String Stem :=
  match lookupA db key with
  | some stem => .ok stem
  | none => .error ("stem " ++ key.name ++ " with version " ++ key.version ++ " not found")

/-- Modelled from the spec: StemRepository.FetchStem, called by the managers but not
defined under src (only FindStem is). Spec section 4.1: Fetch(key) fails with NotFound
if absent; identical observable behavior to FindStem. -/
def fetchStem (db : HerbariumDB) (key : StemKey) : Except String Stem :=
  match lookupA db key with
  | some stem => .ok stem
  | none => .error ("stem " ++ key.name ++ " with version " ++ key.version ++ " not found")

/-- Modelled from the spec: StemRepository.SaveStem, called by RegisterStem but not
defined under src. Spec section 4.1: Save(key, stem) fails with AlreadyExists if the
key is present, otherwise stores the stem. -/
def saveStem (db : HerbariumDB) (key : StemKey) (stem : Stem) : Except String HerbariumDB :=
  match lookupA db key with
  | some _ => .error ("stem " ++ key.name ++ " with version " ++ key.version ++ " already exists")
  | none => .ok ((key, stem) :: db)

/-- Modelled from the spec: StemRepository.DeleteStem, called by UnregisterStem but not
defined under src (only RemoveStem is, with the same observable behavior).
Spec section 4.1: Delete(key) fails with NotFound if absent. -/
def deleteStem (db : HerbariumDB) (key : StemKey) : Except String HerbariumDB :=
  match lookupA db key with
  | some _ => .ok (removeA db key)
  | none => .error ("stem " ++ key.name ++ " with version " ++ key.version ++ " not found")

/-- StemRepository.ReplaceStem (internal/storage/repos/stem_repository.go): mutates the
stem stored at the key in place, setting Version and Config only; the catalog key is
untouched. -/
def replaceStem (db : HerbariumDB) (key : StemKey) (newVersion : String)
    (newConfig : StemConfig) : Except String HerbariumDB :=
  match lookupA db key with
  | none => .error ("stem " ++ key.name ++ " with version " ++ key.version ++ " not found")
  | some stem =>
      .ok (updateA db key { stem with version := newVersion, config := newConfig })

/-- LeafRepository.AddLeaf (repos version, keyed by StemKey): fails when the stem is
missing or the leaf ID collides; stores the leaf with Status Running. -/
def addLeaf (db : HerbariumDB) (key : StemKey) (leafID haproxyServer : String)
    (pid port initialized : Nat) : Except String HerbariumDB :=
  match lookupA db key with
  | none => .error ("stem " ++ key.name ++ " with version " ++ key.version ++ " not found")
  | some stem =>
      match lookupA stem.leafInstances leafID with
      | some _ => .error ("leaf " ++ leafID ++ " already exists in stem " ++ key.name ++
          " version " ++ key.version)
      | none =>
          .ok (updateA db key { stem with leafInstances := stem.leafInstances ++
            [(leafID, { id := leafID, pid := pid, haproxyServer := haproxyServer,
                        port := port, status := .running, initialized := initialized })] })

/-- LeafRepository.RemoveLeaf (repos version): fails when the stem or the leaf is
missing, otherwise deletes the leaf entry. -/
def removeLeaf (db : HerbariumDB) (key : StemKey) (leafID : String) :
    Except String HerbariumDB :=
  match lookupA db key with
  | none => .error ("stem " ++ key.name ++ " with version " ++ key.version ++ " not found")
  | some stem =>
      match lookupA stem.leafInstances leafID with
      | none => .error ("leaf " ++ leafID ++ " not found in stem " ++ key.name ++
          " version " ++ key.version)
      | some _ =>
          .ok (updateA db key { stem with leafInstances := removeA stem.leafInstances leafID })

/-- LeafRepository.FindLeafByID (repos version). -/
def findLeafByID (db : HerbariumDB) (key : StemKey) (leafID : String) : Except String Leaf :=
  match lookupA db key with
  | none => .error ("stem " ++ key.name ++ " with version " ++ key.version ++ " not found")
  | some stem =>
      match lookupA stem.leafInstances leafID with
      | none => .error ("leaf " ++ leafID ++ " not found in stem " ++ key.name ++
          " version " ++ key.version)
      | some leaf => .ok leaf

/-- LeafRepository.GetGraftNode (repos version): returns the GraftNodeLeaf field, which
may be nil; errors only when the stem is missing. -/
def getGraftNode (db : HerbariumDB) (key : StemKey) : Except String (Option Leaf) :=
  match lookupA db key with
  | none => .error ("stem " ++ key.name ++ " with version " ++ key.version ++ " not found")
  | some stem => .ok stem.graftNodeLeaf

/-- LeafRepository.SetGraftNode (repos version). -/
def setGraftNode (db : HerbariumDB) (key : StemKey) (graftNode : Leaf) :
    Except String HerbariumDB :=
  match lookupA db key with
  | none => .error ("stem " ++ key.name ++ " with version " ++ key.version ++ " not found")
  | some stem => .ok (updateA db key { stem with graftNodeLeaf := some graftNode })

/-- LeafRepository.ClearGraftNode (repos version). -/
def clearGraftNode (db : HerbariumDB) (key : StemKey) : Except String HerbariumDB :=
  match lookupA db key with
  | none => .error ("stem " ++ key.name ++ " with version " ++ key.version ++ " not found")
  | some stem => .ok (updateA db key { stem with graftNodeLeaf := none })

end Herbarium

namespace Herbarium

instance {ε α : Type} [DecidableEq ε] [DecidableEq α] : DecidableEq (Except ε α) :=
  fun x y =>
    match x, y with
    | .error a, .error b =>
        if h : a = b then .isTrue (congrArg Except.error h)
        else .isFalse (fun hh => h (Except.error.inj hh))
    | .error _, .ok _ => .isFalse (fun hh => Except.noConfusion hh)
    | .ok _, .error _ => .isFalse (fun hh => Except.noConfusion hh)
    | .ok a, .ok b =>
        if h : a = b then .isTrue (congrArg Except.ok h)
        else .isFalse (fun hh => h (Except.ok.inj hh))

/-- Observable events of the transaction middleware
(internal/haproxy/haproxy_transactional_middleware.go), in call order. Commit and
rollback events record the result the configuration manager returned, which the
middleware logs and discards. -/
inductive TxEvent where
  | getVersionEv (res : Except String Nat)
  | startTxEv (version : Nat) (res : Except String String)
  | nextEv (tx : String)
  | commitEv (tx : String) (res : Option String)
  | rollbackEv (tx : String) (res : Option String)
deriving DecidableEq, Repr

/-- Outcomes of the configuration-manager calls the middleware makes; these come from
HTTP exchanges with the data-plane API, so they are supplied as an oracle. For commit
and rollback, some e means the call failed with error e. -/
structure TxEnv where
  versionRes : Except String Nat
  startTxRes : Nat → Except String String
  commitRes : String → Option String
  rollbackRes : String → Option String

/-- NewTransactionMiddleware (internal/haproxy/haproxy_transactional_middleware.go):
GetCurrentConfigVersion, then StartTransaction(version), then next(tx); the deferred
block commits when next returned nil and rolls back otherwise, discarding the commit
or rollback result; the function returns executionErr, the result of next. -/
def runMiddleware (env : TxEnv) (next : String → Except String Unit) :
    List TxEvent × Except String Unit :=
  match env.versionRes with
  | .error e =>
      ([.getVersionEv (.error e)],
       .error ("failed to retrieve configuration version: " ++ e))
  | .ok cfgVer =>
      match env.startTxRes cfgVer with
      | .error e =>
          ([.getVersionEv (.ok cfgVer), .startTxEv cfgVer (.error e)],
           .error ("failed to start transaction: " ++ e))
      | .ok tx =>
          match next tx with
          | .error e =>
              ([.getVersionEv (.ok cfgVer), .startTxEv cfgVer (.ok tx), .nextEv tx,
                .rollbackEv tx (env.rollbackRes tx)],
               .error e)
          | .ok _ =>
              ([.getVersionEv (.ok cfgVer), .startTxEv cfgVer (.ok tx), .nextEv tx,
                .commitEv tx (env.commitRes tx)],
               .ok ())

/-- One backend configuration: server name mapped to its address string. -/
def HAConf := List (String × List (String × String))

instance : DecidableEq HAConf := by
  unfold HAConf
  infer_instance

/-- Driver-level HAProxy state: the committed configuration, the open transactions
with their pending configurations, a counter minting transaction IDs, and the
configuration version. -/
structure HAState where
  committed : HAConf
  txs : List (String × HAConf)
  counter : Nat
  version : Nat

/-- Driver-level events for transactional runs of the HAProxy client verbs. -/
inductive DEvent where
  | dGetVersion (v : Nat)
  | dStartTx (tx : String)
  | dDelete (backend server tx : String)
  | dAdd (backend server address tx : String)
  | dCommit (tx : String)
  | dRollback (tx : String)
deriving DecidableEq, Repr

/-- Injected transport or API failures for the driver calls made inside a
transaction; these come from the HTTP layer, so they are supplied as an oracle. -/
structure DriverFaults where
  versionFault : Option String
  startTxFault : Option String
  deleteFault : String → String → Option String
  addFault : String → String → Option String
  commitFault : Option String
  rollbackFault : Option String

/-- Removes a server from a backend inside a configuration; a missing backend or
server leaves the configuration unchanged (the driver treats 404 as success). -/
def confDeleteServer (conf : HAConf) (backend server : String) : HAConf :=
  match lookupA conf backend with
  | none => conf
  | some servers => updateA conf backend (removeA servers server)

/-- Adds a server to a backend inside a configuration. AddServer in the driver
(test_util.go) posts the server and checks only for a transport error, not the HTTP
status, so a missing backend still reports success and leaves the configuration
unchanged. -/
def confAddServer (conf : HAConf) (backend server address : String) : HAConf :=
  match lookupA conf backend with
  | none => conf
  | some servers => updateA conf backend (servers ++ [(server, address)])

/-- HAProxyConfigurationManager.DeleteServer acting on the pending configuration of a
transaction: an injected transport fault yields an error, otherwise the server is
removed (404 treated as success). -/
def driverDeleteServer (faults : DriverFaults) (conf : HAConf) (backend server : String) :
    HAConf × Except String Unit :=
  match faults.deleteFault backend server with
  | some e => (conf, .error ("failed to delete server " ++ server ++ " from backend " ++
      backend ++ ": " ++ e))
  | none => (confDeleteServer conf backend server, .ok ())

/-- HAProxyConfigurationManager.AddServer acting on the pending configuration of a
transaction: an injected transport fault yields an error, otherwise the server is
added. -/
def driverAddServer (faults : DriverFaults) (conf : HAConf) (backend server address : String) :
    HAConf × Except String Unit :=
  match faults.addFault backend server with
  | some e => (conf, .error ("failed to add server to backend: " ++ e))
  | none => (confAddServer conf backend server address, .ok ())

/-- Transaction id minted by the data-plane API for the n-th transaction. -/
def txName (n : Nat) : String := "tx-" ++ toString n

/-- The transaction middleware specialised to the driver state: GetCurrentConfigVersion,
StartTransaction (copying the committed configuration as the pending one), the closure
next over the pending configuration, then commit (install pending, bump version) when
next succeeded, else rollback (discard pending). A commit or rollback failure leaves
the committed configuration unchanged and is discarded by the middleware, exactly as in
runMiddleware. -/
def runTxS (faults : DriverFaults) (st : HAState)
    (next : String → HAConf → HAConf × List DEvent × Except String Unit) :
    HAState × List DEvent × Except String Unit :=
  match faults.versionFault with
  | some e => (st, [], .error ("failed to retrieve configuration version: " ++ e))
  | none =>
      match faults.startTxFault with
      | some e => (st, [.dGetVersion st.version],
          .error ("failed to start transaction: " ++ e))
      | none =>
          let tx := txName st.counter
          let pending := st.committed
          let st1 : HAState := { st with txs := (tx, pending) :: st.txs,
                                         counter := st.counter + 1 }
          let (conf2, evs, res) := next tx pending
          match res with
          | .error e =>
              ({ st1 with txs := removeA st1.txs tx },
               [.dGetVersion st.version, .dStartTx tx] ++ evs ++ [.dRollback tx],
               .error e)
          | .ok _ =>
              match faults.commitFault with
              | some _ =>
                  ({ st1 with txs := removeA st1.txs tx },
                   [.dGetVersion st.version, .dStartTx tx] ++ evs ++ [.dCommit tx],
                   .ok ())
              | none =>
                  ({ st1 with txs := removeA st1.txs tx, committed := conf2,
                              version := st.version + 1 },
                   [.dGetVersion st.version, .dStartTx tx] ++ evs ++ [.dCommit tx],
                   .ok ())

/-- HAProxyClient.ReplaceLeaf (internal/haproxy/haproxy_client.go): inside one
transaction, DeleteServer of the old server, then AddServer of the new one with
address host:port; any error from either driver call aborts the closure, which the
middleware turns into a rollback. -/
def replaceLeafTx (faults : DriverFaults) (st : HAState)
    (backend oldServer newServer address : String) (port : Nat) :
    HAState × List DEvent × Except String Unit :=
  runTxS faults st (fun tx conf =>
    let (conf1, delRes) := driverDeleteServer faults conf backend oldServer
    let addrStr := address ++ ":" ++ toString port
    match delRes with
    | .error e => (conf1, [.dDelete backend oldServer tx],
        .error ("failed to remove old leaf service: " ++ e))
    | .ok _ =>
        let (conf2, addRes) := driverAddServer faults conf1 backend newServer addrStr
        match addRes with
        | .error e => (conf2, [.dDelete backend oldServer tx,
            .dAdd backend newServer addrStr tx],
            .error ("failed to add new leaf service: " ++ e))
        | .ok _ => (conf2, [.dDelete backend oldServer tx,
            .dAdd backend newServer addrStr tx], .ok ()))

end Herbarium

namespace Herbarium

/-- Client-level and OS-level observable events emitted by the manager operations.
These mirror the calls the managers make on HAProxyClientInterface, on the leaf
manager, and on the OS process table. -/
inductive CEvent where
  | bindStemCall (backend : String)
  | bindLeafCall (backend leafID address : String) (port : Nat)
  | unbindLeafCall (backend server : String)
  | replaceLeafCall (backend oldServer newServer address : String) (port : Nat)
  | unbindStemCall (backend : String)
  | stopLeafCall (stemName version leafID : String)
  | spawnProcess (pid : Nat)
  | killProcess (pid : Nat)
deriving DecidableEq, Repr

/-- Outcomes of the HAProxy client verbs as seen by the managers; each call is an HTTP
round trip, so outcomes are supplied as an oracle keyed by the call arguments
(some e = the verb returned error e). -/
structure ClientOracle where
  bindStemErr : String → Option String
  bindLeafErr : String → String → Nat → Option String
  unbindLeafErr : String → String → Option String
  replaceLeafErr : String → String → String → Nat → Option String
  unbindStemErr : String → Option String

/-- A client oracle on which every HAProxy verb succeeds. -/
def benignClient : ClientOracle :=
  { bindStemErr := fun _ => none
    bindLeafErr := fun _ _ _ => none
    unbindLeafErr := fun _ _ => none
    replaceLeafErr := fun _ _ _ _ => none
    unbindStemErr := fun _ => none }

/-- Environment-driven inputs of one StartLeaf run: the generated leaf ID (built from
the clock in Go), the port found by findAvailablePort (none when the scan exhausts),
and the result of startLeafInternal (the PID of the spawned, ready process, or the
error from working-directory resolution, command preparation, spawn or readiness). -/
structure StartOracle where
  leafId : String
  port : Option Nat
  spawn : Except String Nat

/-- World state threaded through the manager operations: the catalog and the set of
live process IDs. -/
structure World where
  db : HerbariumDB
  alive : List Nat
deriving DecidableEq

/-- LeafManager.StartLeaf (internal/manager/leaf_manager.go): generate the leaf ID,
find a port, fetch the stem, spawn the process via startLeafInternal, then either
ReplaceLeaf (when replaceServer is set) or BindLeaf on the HAProxy client, and finally
persist through LeafRepo.AddLeaf. A persistence failure returns the error with no
HAProxy unbind and no process kill, matching the Go code and its step-6 comment. -/
def startLeaf (w : World) (co : ClientOracle) (so : StartOracle)
    (stemName version : String) (replaceServer : Option String) :
    World × List CEvent × Except String String :=
  let leafID := so.leafId
  match so.port with
  | none => (w, [], .error "failed to find an available port: no available ports found")
  | some leafPort =>
      let stemKey : StemKey := { name := stemName, version := version }
      match fetchStem w.db stemKey with
      | .error e => (w, [], .error ("failed to find stem configuration: " ++ e))
      | .ok stem =>
          match so.spawn with
          | .error e => (w, [], .error ("failed to start leaf process: " ++ e))
          | .ok pid =>
              let w1 : World := { w with alive := pid :: w.alive }
              match replaceServer with
              | some oldServer =>
                  match co.replaceLeafErr stem.haproxyBackend oldServer leafID leafPort with
                  | some e =>
                      (w1, [.spawnProcess pid,
                            .replaceLeafCall stem.haproxyBackend oldServer leafID "localhost" leafPort],
                       .error ("failed to replace server in HAProxy: " ++ e))
                  | none =>
                      match addLeaf w1.db stemKey leafID leafID pid leafPort 0 with
                      | .error e =>
                          (w1, [.spawnProcess pid,
                                .replaceLeafCall stem.haproxyBackend oldServer leafID "localhost" leafPort],
                           .error ("leaf started, but failed to save to repository: " ++ e))
                      | .ok db1 =>
                          ({ w1 with db := db1 },
                           [.spawnProcess pid,
                            .replaceLeafCall stem.haproxyBackend oldServer leafID "localhost" leafPort],
                           .ok leafID)
              | none =>
                  match co.bindLeafErr stem.haproxyBackend leafID leafPort with
                  | some e =>
                      (w1, [.spawnProcess pid,
                            .bindLeafCall stem.haproxyBackend leafID "localhost" leafPort],
                       .error ("failed to bind leaf to HAProxy: " ++ e))
                  | none =>
                      match addLeaf w1.db stemKey leafID leafID pid leafPort 0 with
                      | .error e =>
                          (w1, [.spawnProcess pid,
                                .bindLeafCall stem.haproxyBackend leafID "localhost" leafPort],
                           .error ("leaf started, but failed to save to repository: " ++ e))
                      | .ok db1 =>
                          ({ w1 with db := db1 },
                           [.spawnProcess pid,
                            .bindLeafCall stem.haproxyBackend leafID "localhost" leafPort],
                           .ok leafID)

/-- LeafManager.StopLeaf (internal/manager/leaf_manager.go): fetch the stem, look the
leaf up in LeafInstances, UnbindLeaf on the HAProxy client, then kill the process by
PID; a kill failure (in particular a process that no longer exists) returns an error
before the repository record is removed. Removal happens only after a successful kill. -/
def stopLeaf (w : World) (co : ClientOracle) (stemName version leafID : String) :
    World × List CEvent × Except String Unit :=
  let stemKey : StemKey := { name := stemName, version := version }
  match fetchStem w.db stemKey with
  | .error e => (w, [.stopLeafCall stemName version leafID],
      .error ("failed to find stem: " ++ e))
  | .ok stem =>
      match lookupA stem.leafInstances leafID with
      | none => (w, [.stopLeafCall stemName version leafID],
          .error ("leaf with ID " ++ leafID ++ " not found in stem"))
      | some leaf =>
          match co.unbindLeafErr stem.haproxyBackend leaf.haproxyServer with
          | some e =>
              (w, [.stopLeafCall stemName version leafID,
                   .unbindLeafCall stem.haproxyBackend leaf.haproxyServer],
               .error ("failed to unbind leaf from HAProxy: " ++ e))
          | none =>
              if leaf.pid ∈ w.alive then
                let w1 : World := { w with alive := w.alive.erase leaf.pid }
                match removeLeaf w1.db stemKey leafID with
                | .error e =>
                    (w1, [.stopLeafCall stemName version leafID,
                          .unbindLeafCall stem.haproxyBackend leaf.haproxyServer,
                          .killProcess leaf.pid],
                     .error ("failed to remove leaf from repository: " ++ e))
                | .ok db1 =>
                    ({ w1 with db := db1 },
                     [.stopLeafCall stemName version leafID,
                      .unbindLeafCall stem.haproxyBackend leaf.haproxyServer,
                      .killProcess leaf.pid],
                     .ok ())
              else
                (w, [.stopLeafCall stemName version leafID,
                     .unbindLeafCall stem.haproxyBackend leaf.haproxyServer],
                 .error ("failed to kill process with PID " ++ toString leaf.pid ++
                   ": os: process already finished"))

/-- Insertion step of the ID sort used by GetRunningLeafs. -/
def insertByID (l : Leaf) : List Leaf → List Leaf
  | [] => [l]
  | x :: xs => if l.id ≤ x.id then l :: x :: xs else x :: insertByID l xs

/-- Ascending sort by leaf ID, modelling the sort.Slice call in GetRunningLeafs. -/
def sortByID : List Leaf → List Leaf
  | [] => []
  | x :: xs => insertByID x (sortByID xs)

/-- LeafManager.GetRunningLeafs (internal/manager/leaf_manager.go): the leaves of the
stem whose status is Running, sorted ascending by ID. -/
def getRunningLeafs (db : HerbariumDB) (key : StemKey) : Except String (List Leaf) :=
  match fetchStem db key with
  | .error e => .error ("failed to find stem " ++ key.name ++ " with version " ++
      key.version ++ ": " ++ e)
  | .ok stem =>
      .ok (sortByID ((stem.leafInstances.map Prod.snd).filter
        (fun l => l.status = LeafStatus.running)))

/-- The parallel stop phase of UnregisterStem, linearised: every leaf in the snapshot
gets its StopLeaf call (the Go code launches one goroutine per leaf and waits on the
whole group), and the recorded error is the last one stored, matching the
last-write-wins behavior of atomic.Value under this linearisation. -/
def stopAll (w : World) (co : ClientOracle) (key : StemKey) :
    List Leaf → World × List CEvent × Option String
  | [] => (w, [], none)
  | leaf :: rest =>
      let (w1, evs1, res1) := stopLeaf w co key.name key.version leaf.id
      let (w2, evs2, err2) := stopAll w1 co key rest
      (w2, evs1 ++ evs2,
       match err2 with
       | some e => some e
       | none => match res1 with
                 | .error e => some e
                 | .ok _ => none)

/-- StemManager.UnregisterStem (internal/manager/stem_manager.go): fetch the stem,
snapshot the running leaves, stop them all in parallel; if any stop failed, return the
stored error immediately, so the HAProxy unbind and the catalog delete are not
attempted; otherwise UnbindStem on stem.HAProxyBackend and delete the catalog entry. -/
def unregisterStem (w : World) (co : ClientOracle) (key : StemKey) :
    World × List CEvent × Except String Unit :=
  match fetchStem w.db key with
  | .error e => (w, [], .error ("failed to fetch stem " ++ key.name ++ " version " ++
      key.version ++ ": " ++ e))
  | .ok stem =>
      match getRunningLeafs w.db key with
      | .error e => (w, [], .error ("failed to retrieve running leafs for stem " ++
          key.name ++ " version " ++ key.version ++ ": " ++ e))
      | .ok leafs =>
          let (w1, evs, stopErr) := stopAll w co key leafs
          match stopErr with
          | some e => (w1, evs, .error ("failed to stop leafs for stem " ++ key.name ++
              " version " ++ key.version ++ ": " ++ e))
          | none =>
              match co.unbindStemErr stem.haproxyBackend with
              | some e =>
                  (w1, evs ++ [.unbindStemCall stem.haproxyBackend],
                   .error ("failed to unbind stem backend for " ++ stem.haproxyBackend ++
                     ": " ++ e))
              | none =>
                  match deleteStem w1.db key with
                  | .error e =>
                      (w1, evs ++ [.unbindStemCall stem.haproxyBackend],
                       .error ("failed to remove stem from repository: " ++ e))
                  | .ok db1 =>
                      ({ w1 with db := db1 }, evs ++ [.unbindStemCall stem.haproxyBackend],
                       .ok ())

/-- Go strings.TrimPrefix of a single leading slash, as used by RegisterStem: when the
string starts with a slash, the string without that first character, otherwise the
string unchanged. -/
def trimLeadingSlash (s : String) : String :=
  match s.data with
  | [] => s
  | c :: rest => if c = '/' then String.mk rest else s

/-- The MinInstances loop of RegisterStem: count calls to StartLeaf (no replace
server), aborting on the first failure. The oracle is indexed by the loop counter. -/
def registerLoop (w : World) (co : ClientOracle) (so : Nat → StartOracle)
    (stemName version : String) : Nat → Nat → World × List CEvent × Except String Unit
  | _, 0 => (w, [], .ok ())
  | i, n + 1 =>
      let (w1, evs1, res1) := startLeaf w co (so i) stemName version none
      match res1 with
      | .error e => (w1, evs1, .error ("failed to start leaf for stem " ++ stemName ++
          " version " ++ version ++ ": " ++ e))
      | .ok _ =>
          let (w2, evs2, res2) := registerLoop w1 co so stemName version (i + 1) n
          (w2, evs1 ++ evs2, res2)

/-- StemManager.RegisterStem (internal/manager/stem_manager.go): reject when the key is
already present, BindStem on the URL with its leading slash trimmed, store the stem
record keeping HAProxyBackend equal to the untrimmed config.URL, with empty
LeafInstances and no GraftNodeLeaf, then start MinInstances leaves when that field is
non-nil and positive. No graft node is started on the nil path. -/
def registerStem (w : World) (co : ClientOracle) (so : Nat → StartOracle)
    (config : StemConfig) : World × List CEvent × Except String Unit :=
  let stemKey : StemKey := { name := config.name, version := config.version }
  match fetchStem w.db stemKey with
  | .ok _ => (w, [], .error ("Stem " ++ config.name ++ " already exists in version " ++
      config.version ++ ". Please provide a new version or stop the previous one."))
  | .error _ =>
      let cleanURL := trimLeadingSlash config.url
      match co.bindStemErr cleanURL with
      | some e => (w, [.bindStemCall cleanURL],
          .error ("failed to bind stem backend for URL " ++ config.url ++ ": " ++ e))
      | none =>
          let stem : Stem :=
            { name := config.name
              type := .deployment
              workingURL := config.url
              haproxyBackend := config.url
              version := config.version
              environment := config.env
              leafInstances := []
              graftNodeLeaf := none
              config := config }
          match saveStem w.db stemKey stem with
          | .error e => (w, [.bindStemCall cleanURL],
              .error ("failed to save stem to repository: " ++ e))
          | .ok db1 =>
              let w1 : World := { w with db := db1 }
              match config.minInstances with
              | some m =>
                  if m > 0 then
                    let (w2, evs, res) :=
                      registerLoop w1 co so config.name config.version 0 m.toNat
                    (w2, .bindStemCall cleanURL :: evs, res)
                  else
                    (w1, [.bindStemCall cleanURL], .ok ())
              | none => (w1, [.bindStemCall cleanURL], .ok ())

/-- LeafManager.StartGraftNodeLeaf (internal/manager/leaf_manager.go): fetch the stem,
fail when a graft node already exists, build the distinguished graftnode leaf with
PID 0 and Status Running on a fresh port, BindLeaf it into the backend, start the
in-process HTTP server (createAndBindGraftNodeServer, which always returns nil), and
persist through SetGraftNode. -/
def startGraftNodeLeaf (w : World) (co : ClientOracle) (graftPort : Option Nat)
    (stemName version : String) : World × List CEvent × Except String String :=
  let stemKey : StemKey := { name := stemName, version := version }
  match fetchStem w.db stemKey with
  | .error e => (w, [], .error ("failed to find stem configuration: " ++ e))
  | .ok stem =>
      match getGraftNode w.db stemKey with
      | .error e => (w, [], .error ("failed to retrieve existing graft node: " ++ e))
      | .ok (some _) =>
          (w, [], .error ("graft node for stem " ++ stemName ++ " already exists"))
      | .ok none =>
          let graftNodeLeafID := stemName ++ "-" ++ version ++ "-graftnode"
          match graftPort with
          | none => (w, [], .error "failed to find an available port: no available ports found")
          | some p =>
              let graftNodeLeaf : Leaf :=
                { id := graftNodeLeafID, pid := 0, haproxyServer := graftNodeLeafID,
                  port := p, status := .running, initialized := 0 }
              match co.bindLeafErr stem.haproxyBackend graftNodeLeafID p with
              | some e =>
                  (w, [.bindLeafCall stem.haproxyBackend graftNodeLeafID "localhost" p],
                   .error ("failed to bind graft node to HAProxy backend: " ++ e))
              | none =>
                  match setGraftNode w.db stemKey graftNodeLeaf with
                  | .error e =>
                      (w, [.bindLeafCall stem.haproxyBackend graftNodeLeafID "localhost" p],
                       .error ("failed to save graft node leaf: " ++ e))
                  | .ok db1 =>
                      ({ w with db := db1 },
                       [.bindLeafCall stem.haproxyBackend graftNodeLeafID "localhost" p],
                       .ok graftNodeLeafID)

/-- Response of the graft-node request handler: the request was reverse-proxied to the
real leaf on the given port, or answered with HTTP 500 and a textual body. -/
inductive GraftResponse where
  | proxied (port : Nat)
  | internalError (msg : String)
deriving DecidableEq, Repr

/-- The request handler installed by createAndBindGraftNodeServer
(internal/manager/leaf_manager.go), for one request that entered it: StartLeaf with
replaceServer = the graft node ID, FindLeafByID on the new leaf, ClearGraftNode, then
proxy the request to the real port. There is no per-stem mutex and no check whether
the graft node was already cleared; every entering request runs this body in full.
Failures answer HTTP 500 (never 503). The closure captures the stem record and the
graft node ID from graft-node creation time. -/
def graftHandler (w : World) (co : ClientOracle) (so : StartOracle)
    (stem : Stem) (graftNodeId : String) : World × List CEvent × GraftResponse :=
  let stemKey : StemKey := { name := stem.name, version := stem.version }
  match startLeaf w co so stem.name stem.version (some graftNodeId) with
  | (w1, evs, .error _) =>
      (w1, evs, .internalError "Internal Server Error: Unable to start real instance")
  | (w1, evs, .ok realLeafID) =>
      match findLeafByID w1.db stemKey realLeafID with
      | .error _ =>
          (w1, evs, .internalError "Internal Server Error: Unable to retrieve real instance")
      | .ok realLeaf =>
          match clearGraftNode w1.db stemKey with
          | .error _ =>
              (w1, evs, .internalError "Internal Server Error: Unable to clear graft node")
          | .ok db1 =>
              ({ w1 with db := db1 }, evs, .proxied realLeaf.port)

/-- The graft-exclusivity property of spec section 3: LeafInstances non-empty or
GraftNodeLeaf present, never both, never neither. -/
def graftExclusive (stem : Stem) : Prop :=
  (stem.leafInstances ≠ [] ∨ stem.graftNodeLeaf ≠ none) ∧
    ¬ (stem.leafInstances ≠ [] ∧ stem.graftNodeLeaf ≠ none)

instance (stem : Stem) : Decidable (graftExclusive stem) := by
  unfold graftExclusive
  infer_instance

end Herbarium

namespace Herbarium

/-- A driver-fault oracle on which every call succeeds. -/
def noFaults : DriverFaults :=
  { versionFault := none, startTxFault := none, deleteFault := fun _ _ => none,
    addFault := fun _ _ => none, commitFault := none, rollbackFault := none }

/-- The configuration of seed scenario 2 of the spec: name test-stem, URL /test,
version 1.0.0, MinInstances nil. -/
def cfgTest : StemConfig :=
  { name := "test-stem", url := "/test", command := "ping 127.0.0.1", env := [],
    version := "1.0.0", minInstances := none, startMessage := none }

/-- The stem key of the seed scenario. -/
def keyTest : StemKey := { name := "test-stem", version := "1.0.0" }

/-- An empty initial world: empty catalog, no live processes. -/
def w0 : World := { db := [], alive := [] }

/-- A start oracle for which every StartLeaf attempt would succeed. -/
def soOk : Nat → StartOracle :=
  fun _ => { leafId := "L0", port := some 8000, spawn := .ok 10 }

/-- The stem record RegisterStem builds and saves (stem_manager.go lines 62 to 71):
Type Deployment, WorkingURL and HAProxyBackend both set to the untrimmed config.URL,
empty LeafInstances, no GraftNodeLeaf. -/
def registeredStemRecord (config : StemConfig) : Stem :=
  { name := config.name
    type := .deployment
    workingURL := config.url
    haproxyBackend := config.url
    version := config.version
    environment := config.env
    leafInstances := []
    graftNodeLeaf := none
    config := config }

/-- The catalog record reached by registering the seed configuration. -/
def stemAfterRegister : Stem := registeredStemRecord cfgTest

/-- A running leaf used by the stop and unregister scenarios. -/
def leaf1 : Leaf :=
  { id := "leaf1", pid := 42, haproxyServer := "leaf1", port := 8000,
    status := .running, initialized := 0 }

/-- A registered stem holding the single running leaf leaf1. -/
def stemWithLeaf : Stem :=
  { name := "test-stem", type := .deployment, workingURL := "/test",
    haproxyBackend := "/test", version := "1.0.0", environment := [],
    leafInstances := [("leaf1", leaf1)], graftNodeLeaf := none, config := cfgTest }

/-- World with the leaf1 stem registered but the leaf process already gone from the
OS process table. -/
def wDeadLeaf : World := { db := [(keyTest, stemWithLeaf)], alive := [] }

/-- A pre-existing leaf whose ID collides with the one a later StartLeaf generates. -/
def leafDup : Leaf :=
  { id := "dup", pid := 7, haproxyServer := "dup", port := 8005,
    status := .running, initialized := 0 }

/-- A registered stem already holding the leaf named dup. -/
def stemWithDup : Stem := { stemWithLeaf with leafInstances := [("dup", leafDup)] }

/-- World for the persistence-failure scenario of StartLeaf. -/
def wDup : World := { db := [(keyTest, stemWithDup)], alive := [7] }

/-- Start oracle whose generated leaf ID collides with the stored leaf dup. -/
def soDup : StartOracle := { leafId := "dup", port := some 8001, spawn := .ok 99 }

/-- The distinguished graft-node leaf ID of the seed stem. -/
def gidTest : String := "test-stem-1.0.0-graftnode"

/-- The installed graft-node leaf of the seed stem. -/
def graftLeafTest : Leaf :=
  { id := gidTest, pid := 0, haproxyServer := gidTest, port := 8000,
    status := .running, initialized := 0 }

/-- The seed stem in its idle state: no real leaves, graft node installed. -/
def stemGraft : Stem :=
  { stemWithLeaf with leafInstances := [], graftNodeLeaf := some graftLeafTest }

/-- World with the idle seed stem and its graft node. -/
def wGraft : World := { db := [(keyTest, stemGraft)], alive := [] }

/-- Start oracle of the first request hitting the graft node. -/
def soReq1 : StartOracle := { leafId := "L1", port := some 8001, spawn := .ok 11 }

/-- Start oracle of the second request hitting the graft node. -/
def soReq2 : StartOracle := { leafId := "L2", port := some 8002, spawn := .ok 12 }

theorem lookupA_updateA {α β : Type} [DecidableEq α] (db : List (α × β)) (a : α)
    (b : β) (k : α) :
    lookupA (updateA db a b) k =
      if k = a then (lookupA db a).map (fun _ => b) else lookupA db k := by
  induction db with
  | nil => by_cases h : k = a <;> simp [lookupA, updateA, h]
  | cons hd tl ih =>
      obtain ⟨c, v⟩ := hd
      by_cases hca : c = a
      · subst hca
        by_cases hk : c = k
        · subst hk
          simp [lookupA, updateA]
        · have hkc : ¬ k = c := fun h => hk h.symm
          simp [lookupA, updateA, hk, hkc]
      · by_cases hk : c = k
        · subst hk
          have hca2 : ¬ c = a := hca
          simp [lookupA, updateA, hca2]
        · simp [lookupA, updateA, hca, hk, ih]

theorem lookupA_append {α β : Type} [DecidableEq α] (xs ys : List (α × β)) (a : α) :
    lookupA (xs ++ ys) a =
      match lookupA xs a with
      | some v => some v
      | none => lookupA ys a := by
  induction xs with
  | nil => simp [lookupA]
  | cons hd tl ih =>
      obtain ⟨c, v⟩ := hd
      by_cases h : c = a <;> simp [lookupA, h, ih]

end Herbarium


namespace Herbarium

theorem stopLeaf_emits_call (w : World) (co : ClientOracle) (n v i : String) :
    CEvent.stopLeafCall n v i ∈ (stopLeaf w co n v i).2.1 := by
  unfold stopLeaf
  dsimp only
  repeat' split
  all_goals simp

theorem stopLeaf_no_unbindStem (w : World) (co : ClientOracle) (n v i b : String) :
    CEvent.unbindStemCall b ∉ (stopLeaf w co n v i).2.1 := by
  unfold stopLeaf
  dsimp only
  repeat' split
  all_goals simp


theorem removeLeaf_preserves_key (db : HerbariumDB) (key k : StemKey) (i : String)
    (db1 : HerbariumDB) (h : removeLeaf db key i = .ok db1)
    (hk : (lookupA db k).isSome) : (lookupA db1 k).isSome := by
  unfold removeLeaf at h
  cases hs : lookupA db key with
  | none => rw [hs] at h; exact absurd h (by simp)
  | some stem =>
      rw [hs] at h
      dsimp only at h
      cases hl : lookupA stem.leafInstances i with
      | none => rw [hl] at h; exact absurd h (by simp)
      | some leaf =>
          rw [hl] at h
          dsimp only at h
          simp only [Except.ok.injEq] at h
          subst h
          rw [lookupA_updateA]
          by_cases hkk : k = key
          · subst hkk; simp [hs]
          · simp [hkk]; exact hk

theorem stopLeaf_preserves_key (w : World) (co : ClientOracle) (n v i : String)
    (k : StemKey) (hk : (lookupA w.db k).isSome) :
    (lookupA (stopLeaf w co n v i).1.db k).isSome := by
  unfold stopLeaf
  dsimp only
  repeat' split
  all_goals (try exact hk)
  all_goals (rename_i heq; exact removeLeaf_preserves_key _ _ _ _ _ heq hk)


theorem stopAll_no_unbindStem (co : ClientOracle) (key : StemKey) :
    ∀ (ls : List Leaf) (w : World) (b : String),
      CEvent.unbindStemCall b ∉ (stopAll w co key ls).2.1 := by
  intro ls
  induction ls with
  | nil => intro w b; simp [stopAll]
  | cons hd tl ih =>
      intro w b
      simp only [stopAll]
      rcases hsl : stopLeaf w co key.name key.version hd.id with ⟨w1, evs1, res1⟩
      dsimp only
      intro hmem
      rw [List.mem_append] at hmem
      rcases hmem with hmem | hmem
      · have := stopLeaf_no_unbindStem w co key.name key.version hd.id b
        rw [hsl] at this
        exact this hmem
      · exact ih w1 b hmem

theorem stopAll_emits_all_calls (co : ClientOracle) (key : StemKey) :
    ∀ (ls : List Leaf) (w : World), ∀ leaf ∈ ls,
      CEvent.stopLeafCall key.name key.version leaf.id ∈ (stopAll w co key ls).2.1 := by
  intro ls
  induction ls with
  | nil => intro w leaf h; exact absurd h (by simp)
  | cons hd tl ih =>
      intro w leaf hmem
      simp only [stopAll]
      rcases hsl : stopLeaf w co key.name key.version hd.id with ⟨w1, evs1, res1⟩
      dsimp only
      rw [List.mem_append]
      rcases List.mem_cons.mp hmem with rfl | hmem
      · left
        have := stopLeaf_emits_call w co key.name key.version leaf.id
        rw [hsl] at this
        exact this
      · right
        exact ih w1 leaf hmem

theorem stopAll_preserves_key (co : ClientOracle) (key : StemKey) :
    ∀ (ls : List Leaf) (w : World) (k : StemKey), (lookupA w.db k).isSome →
      (lookupA (stopAll w co key ls).1.db k).isSome := by
  intro ls
  induction ls with
  | nil => intro w k hk; simpa [stopAll] using hk
  | cons hd tl ih =>
      intro w k hk
      simp only [stopAll]
      rcases hsl : stopLeaf w co key.name key.version hd.id with ⟨w1, evs1, res1⟩
      dsimp only
      have h1 := stopLeaf_preserves_key w co key.name key.version hd.id k hk
      rw [hsl] at h1
      exact ih w1 k h1


end Herbarium

namespace Herbarium

/-- C1: RegisterStem with nil MinInstances is required (by the spec and by the test
TestStemManager_AddStemWithGraftNode) to leave the stem with empty LeafInstances and a
graft node whose ID is test-stem-1.0.0-graftnode. The embedded RegisterStem, run on the
seed configuration from an empty catalog with every HAProxy call succeeding, returns
success yet installs no graft node: GetGraftNode yields none and LeafInstances is
empty, because RegisterStem never calls StartGraftNodeLeaf. -/
theorem C1_register_nil_min_instances_installs_no_graft :
    (registerStem w0 benignClient soOk cfgTest).2.2 = .ok () ∧
    lookupA (registerStem w0 benignClient soOk cfgTest).1.db keyTest =
      some stemAfterRegister ∧
    stemAfterRegister.leafInstances = [] ∧
    stemAfterRegister.graftNodeLeaf = none ∧
    getGraftNode (registerStem w0 benignClient soOk cfgTest).1.db keyTest = .ok none := by
  decide

/-- C5: graft exclusivity is claimed to hold in every state reachable by the public
stem and leaf operations. The state reached by the single operation RegisterStem on
the seed configuration (MinInstances nil) already violates it: the stem is registered
with empty LeafInstances and no GraftNodeLeaf, so neither disjunct holds. -/
theorem C5_graft_exclusivity_violated_after_register :
    (registerStem w0 benignClient soOk cfgTest).2.2 = .ok () ∧
    lookupA (registerStem w0 benignClient soOk cfgTest).1.db keyTest =
      some stemAfterRegister ∧
    ¬ graftExclusive stemAfterRegister := by
  decide

/-- C7 counterexample: the stem holds leaf1 with PID 42, the HAProxy unbind succeeds,
but the OS process table no longer contains PID 42. StopLeaf returns the kill error
instead of tolerating the vanished process, and the repository record of leaf1 is
still present afterwards. -/
theorem C7_counterexample_dead_pid_fails_stop :
    stopLeaf wDeadLeaf benignClient "test-stem" "1.0.0" "leaf1" =
      (wDeadLeaf,
       [.stopLeafCall "test-stem" "1.0.0" "leaf1", .unbindLeafCall "/test" "leaf1"],
       .error "failed to kill process with PID 42: os: process already finished") ∧
    findLeafByID wDeadLeaf.db keyTest "leaf1" = .ok leaf1 := by
  decide

/-- C7 amended: when the stem and leaf exist, the HAProxy unbind succeeds, and the
process with leaf.PID no longer exists, StopLeaf fails with the kill error; the world
is returned unchanged, so the repository record of the leaf remains. -/
theorem C7_kill_failure_is_fatal (w : World) (co : ClientOracle)
    (stemName version leafID : String) (stem : Stem) (leaf : Leaf)
    (hstem : lookupA w.db { name := stemName, version := version } = some stem)
    (hleaf : lookupA stem.leafInstances leafID = some leaf)
    (hunbind : co.unbindLeafErr stem.haproxyBackend leaf.haproxyServer = none)
    (hdead : leaf.pid ∉ w.alive) :
    stopLeaf w co stemName version leafID =
      (w,
       [.stopLeafCall stemName version leafID,
        .unbindLeafCall stem.haproxyBackend leaf.haproxyServer],
       .error ("failed to kill process with PID " ++ toString leaf.pid ++
         ": os: process already finished")) ∧
    findLeafByID w.db { name := stemName, version := version } leafID = .ok leaf := by
  constructor
  · simp [stopLeaf, fetchStem, hstem, hleaf, hunbind, hdead]
  · simp [findLeafByID, hstem, hleaf]

/-- C7 witness: the amended StopLeaf theorem instantiated at the dead-PID world. -/
theorem C7_kill_failure_is_fatal_witness :
    stopLeaf wDeadLeaf benignClient "test-stem" "1.0.0" "leaf1" =
      (wDeadLeaf,
       [.stopLeafCall "test-stem" "1.0.0" "leaf1", .unbindLeafCall "/test" "leaf1"],
       .error ("failed to kill process with PID " ++ toString leaf1.pid ++
         ": os: process already finished")) ∧
    findLeafByID wDeadLeaf.db { name := "test-stem", version := "1.0.0" } "leaf1" =
      .ok leaf1 :=
  C7_kill_failure_is_fatal wDeadLeaf benignClient "test-stem" "1.0.0" "leaf1"
    stemWithLeaf leaf1 (by decide) (by decide) (by decide) (by decide)

/-- C8 counterexample: registering the seed configuration (URL /test) calls BindStem
with the trimmed name test, yet stores HAProxyBackend as the untrimmed /test, so
later client calls that use stem.HAProxyBackend do not address the backend name that
RegisterStem created. -/
theorem C8_counterexample_backend_keeps_slash :
    (registerStem w0 benignClient soOk cfgTest).2.1 = [CEvent.bindStemCall "test"] ∧
    lookupA (registerStem w0 benignClient soOk cfgTest).1.db keyTest =
      some stemAfterRegister ∧
    stemAfterRegister.haproxyBackend = "/test" ∧
    trimLeadingSlash cfgTest.url = "test" ∧
    stemAfterRegister.haproxyBackend ≠ trimLeadingSlash cfgTest.url := by
  decide

/-- A start oracle sequence giving each StartLeaf attempt its own leaf ID, port and
PID, so consecutive starts succeed. -/
def soSeq : Nat → StartOracle :=
  fun i => { leafId := "L" ++ toString i, port := some (8000 + i), spawn := .ok (10 + i) }

/-- The seed configuration with MinInstances set to 2, exercising the leaf-start loop
of RegisterStem. -/
def cfgMin : StemConfig := { cfgTest with minInstances := some 2 }

theorem addLeaf_preserves_stem_fields (db : HerbariumDB) (key : StemKey)
    (lid hs : String) (pid port init : Nat) (db1 : HerbariumDB) (k : StemKey) (s : Stem)
    (h : addLeaf db key lid hs pid port init = .ok db1)
    (hk : lookupA db k = some s) :
    ∃ s1, lookupA db1 k = some s1 ∧ s1.haproxyBackend = s.haproxyBackend ∧
      s1.workingURL = s.workingURL := by
  unfold addLeaf at h
  cases hstem : lookupA db key with
  | none => rw [hstem] at h; exact absurd h (by simp)
  | some stem =>
      rw [hstem] at h
      dsimp only at h
      cases hleaf : lookupA stem.leafInstances lid with
      | some _ => rw [hleaf] at h; exact absurd h (by simp)
      | none =>
          rw [hleaf] at h
          dsimp only at h
          simp only [Except.ok.injEq] at h
          subst h
          rw [lookupA_updateA]
          by_cases hkk : k = key
          · subst hkk
            rw [hstem] at hk
            simp only [Option.some.injEq] at hk
            subst hk
            refine ⟨{ stem with leafInstances := stem.leafInstances ++
              [(lid, { id := lid, pid := pid, haproxyServer := hs, port := port,
                       status := .running, initialized := init })] }, ?_, rfl, rfl⟩
            simp [hstem]
          · simp only [hkk, if_false]
            exact ⟨s, hk, rfl, rfl⟩

theorem startLeaf_preserves_stem_fields (w : World) (co : ClientOracle)
    (so : StartOracle) (n v : String) (rs : Option String) (k : StemKey) (s : Stem)
    (hk : lookupA w.db k = some s) :
    ∃ s1, lookupA (startLeaf w co so n v rs).1.db k = some s1 ∧
      s1.haproxyBackend = s.haproxyBackend ∧ s1.workingURL = s.workingURL := by
  unfold startLeaf
  dsimp only
  repeat' split
  all_goals (try exact ⟨s, hk, rfl, rfl⟩)
  all_goals (rename_i heq; exact addLeaf_preserves_stem_fields _ _ _ _ _ _ _ _ _ _ heq hk)

theorem registerLoop_preserves_stem_fields (co : ClientOracle) (so : Nat → StartOracle)
    (n v : String) :
    ∀ (cnt i : Nat) (w : World) (k : StemKey) (s : Stem),
      lookupA w.db k = some s →
      ∃ s1, lookupA (registerLoop w co so n v i cnt).1.db k = some s1 ∧
        s1.haproxyBackend = s.haproxyBackend ∧ s1.workingURL = s.workingURL := by
  intro cnt
  induction cnt with
  | zero => intro i w k s hk; exact ⟨s, hk, rfl, rfl⟩
  | succ m ih =>
      intro i w k s hk
      simp only [registerLoop]
      rcases hsl : startLeaf w co (so i) n v none with ⟨wa, evsa, resa⟩
      dsimp only
      obtain ⟨s1, hs1, hb1, hw1⟩ := startLeaf_preserves_stem_fields w co (so i) n v none k s hk
      rw [hsl] at hs1
      cases resa with
      | error e => exact ⟨s1, hs1, hb1, hw1⟩
      | ok lid =>
          rcases hlp : registerLoop wa co so n v (i + 1) m with ⟨w2, evs2, res2⟩
          dsimp only
          obtain ⟨s2, hs2, hb2, hw2⟩ := ih (i + 1) wa k s1 hs1
          rw [hlp] at hs2
          exact ⟨s2, hs2, hb2.trans hb1, hw2.trans hw1⟩

theorem trimLeadingSlash_ne_of_slash (s : String) (h : s.data.head? = some '/') :
    trimLeadingSlash s ≠ s := by
  unfold trimLeadingSlash
  cases hd : s.data with
  | nil => rw [hd] at h; exact absurd h (by simp)
  | cons c rest =>
      rw [hd] at h
      simp only [List.head?, Option.some.injEq] at h
      subst h
      simp only [if_true]
      intro heq
      have hdata : rest = s.data := congrArg String.data heq
      rw [hd] at hdata
      exact absurd (congrArg List.length hdata) (by simp)

/-- C8 amended: for every successful RegisterStem(config), on any MinInstances path,
BindStem is called with trim-leading-slash(config.URL) (the first emitted event) while
the stem stored under (config.Name, config.Version) carries HAProxyBackend equal to
the untrimmed config.URL; the two differ whenever the URL starts with a slash, so
later client calls using stem.HAProxyBackend address a different name than the
backend RegisterStem created. -/
theorem C8_backend_is_untrimmed_url (w : World) (co : ClientOracle)
    (so : Nat → StartOracle) (config : StemConfig) (w1 : World) (evs : List CEvent)
    (hrun : registerStem w co so config = (w1, evs, .ok ())) :
    (∃ rest, evs = .bindStemCall (trimLeadingSlash config.url) :: rest) ∧
    (∃ stem1,
      lookupA w1.db { name := config.name, version := config.version } = some stem1 ∧
      stem1.haproxyBackend = config.url ∧
      stem1.workingURL = config.url ∧
      (config.url.data.head? = some '/' →
        stem1.haproxyBackend ≠ trimLeadingSlash config.url)) := by
  unfold registerStem fetchStem at hrun
  dsimp only at hrun
  cases habs : lookupA w.db { name := config.name, version := config.version } with
  | some s0 => rw [habs] at hrun; simp at hrun
  | none =>
      rw [habs] at hrun
      dsimp only at hrun
      cases hbind : co.bindStemErr (trimLeadingSlash config.url) with
      | some e => rw [hbind] at hrun; simp at hrun
      | none =>
          rw [hbind] at hrun
          dsimp only at hrun
          unfold saveStem at hrun
          rw [habs] at hrun
          dsimp only at hrun
          cases hmin : config.minInstances with
          | none =>
              rw [hmin] at hrun
              dsimp only at hrun
              simp only [Prod.mk.injEq] at hrun
              obtain ⟨hw, hevs, -⟩ := hrun
              subst hw
              subst hevs
              refine ⟨⟨[], rfl⟩, registeredStemRecord config,
                by simp [lookupA, registeredStemRecord], rfl, rfl, ?_⟩
              intro hslash heq
              exact trimLeadingSlash_ne_of_slash config.url hslash heq.symm
          | some m =>
              rw [hmin] at hrun
              dsimp only at hrun
              by_cases hm : m > 0
              · rw [if_pos hm] at hrun
                simp only [Prod.mk.injEq] at hrun
                obtain ⟨hw, hevs, -⟩ := hrun
                subst hw
                subst hevs
                refine ⟨⟨_, rfl⟩, ?_⟩
                have hbase : lookupA
                    (World.mk (({ name := config.name, version := config.version },
                      registeredStemRecord config) :: w.db) w.alive).db
                    { name := config.name, version := config.version } =
                    some (registeredStemRecord config) := by
                  simp [lookupA]
                obtain ⟨s1, hs1, hb1, hw1⟩ :=
                  registerLoop_preserves_stem_fields co so config.name config.version
                    m.toNat 0 _ _ _ hbase
                exact ⟨s1, hs1, hb1, hw1, fun hslash heq =>
                  trimLeadingSlash_ne_of_slash config.url hslash (hb1 ▸ heq).symm⟩
              · rw [if_neg hm] at hrun
                simp only [Prod.mk.injEq] at hrun
                obtain ⟨hw, hevs, -⟩ := hrun
                subst hw
                subst hevs
                refine ⟨⟨[], rfl⟩, registeredStemRecord config,
                  by simp [lookupA, registeredStemRecord], rfl, rfl, ?_⟩
                intro hslash heq
                exact trimLeadingSlash_ne_of_slash config.url hslash heq.symm

/-- C8 witness: the amended RegisterStem theorem instantiated at the seed
configuration with MinInstances 2, whose loop starts two leaves: BindStem got the
trimmed name test while the stored stem carries the untrimmed backend /test. -/
theorem C8_backend_is_untrimmed_url_witness :
    (∃ rest, (registerStem w0 benignClient soSeq cfgMin).2.1 =
      .bindStemCall (trimLeadingSlash cfgMin.url) :: rest) ∧
    (∃ stem1,
      lookupA (registerStem w0 benignClient soSeq cfgMin).1.db
        { name := cfgMin.name, version := cfgMin.version } = some stem1 ∧
      stem1.haproxyBackend = cfgMin.url ∧
      stem1.workingURL = cfgMin.url ∧
      (cfgMin.url.data.head? = some '/' →
        stem1.haproxyBackend ≠ trimLeadingSlash cfgMin.url)) :=
  C8_backend_is_untrimmed_url w0 benignClient soSeq cfgMin
    (registerStem w0 benignClient soSeq cfgMin).1
    (registerStem w0 benignClient soSeq cfgMin).2.1
    (by decide)

end Herbarium

namespace Herbarium

/-- C4 counterexample: the stem already holds a leaf named dup, the start oracle
generates the colliding ID dup, the process spawns as PID 99 and the HAProxy bind
succeeds, then AddLeaf fails. StartLeaf returns the persistence error, yet the events
contain no UnbindLeaf and no process kill, and PID 99 is still alive. -/
theorem C4_counterexample_no_cleanup_after_persist_failure :
    startLeaf wDup benignClient soDup "test-stem" "1.0.0" none =
      ({ db := wDup.db, alive := [99, 7] },
       [.spawnProcess 99, .bindLeafCall "/test" "dup" "localhost" 8001],
       .error "leaf started, but failed to save to repository: leaf dup already exists in stem test-stem version 1.0.0") ∧
    (∀ b s, CEvent.unbindLeafCall b s ∉
      (startLeaf wDup benignClient soDup "test-stem" "1.0.0" none).2.1) ∧
    (∀ p, CEvent.killProcess p ∉
      (startLeaf wDup benignClient soDup "test-stem" "1.0.0" none).2.1) ∧
    99 ∈ (startLeaf wDup benignClient soDup "test-stem" "1.0.0" none).1.alive := by
  have hlist : (startLeaf wDup benignClient soDup "test-stem" "1.0.0" none).2.1 =
      [.spawnProcess 99, .bindLeafCall "/test" "dup" "localhost" 8001] := by decide
  refine ⟨by decide, ?_, ?_, by decide⟩
  · intro b s h
    rw [hlist] at h
    simp at h
  · intro p h
    rw [hlist] at h
    simp at h

/-- C4 amended: when the port is found, the stem exists, the process spawns, and the
HAProxy bind (first conjunct) or replace (second conjunct) succeeds but AddLeaf fails,
StartLeaf returns the persistence error with the process still alive and no further
HAProxy or kill action: the events are exactly the spawn and the one bind or replace
call. -/
theorem C4_persist_failure_returns_without_cleanup (w : World) (co : ClientOracle)
    (so : StartOracle) (stemName version : String) (p pid : Nat) (stem : Stem)
    (e : String)
    (hport : so.port = some p)
    (hstem : lookupA w.db { name := stemName, version := version } = some stem)
    (hspawn : so.spawn = .ok pid)
    (hadd : addLeaf w.db { name := stemName, version := version }
      so.leafId so.leafId pid p 0 = .error e) :
    (co.bindLeafErr stem.haproxyBackend so.leafId p = none →
      startLeaf w co so stemName version none =
        ({ db := w.db, alive := pid :: w.alive },
         [.spawnProcess pid, .bindLeafCall stem.haproxyBackend so.leafId "localhost" p],
         .error ("leaf started, but failed to save to repository: " ++ e))) ∧
    (∀ oldServer, co.replaceLeafErr stem.haproxyBackend oldServer so.leafId p = none →
      startLeaf w co so stemName version (some oldServer) =
        ({ db := w.db, alive := pid :: w.alive },
         [.spawnProcess pid,
          .replaceLeafCall stem.haproxyBackend oldServer so.leafId "localhost" p],
         .error ("leaf started, but failed to save to repository: " ++ e))) := by
  constructor
  · intro hbind
    simp [startLeaf, fetchStem, hport, hstem, hspawn, hbind, hadd]
  · intro oldServer hrep
    simp [startLeaf, fetchStem, hport, hstem, hspawn, hrep, hadd]

/-- C4 witness: the amended StartLeaf theorem instantiated at the colliding-ID world. -/
theorem C4_persist_failure_returns_without_cleanup_witness :
    startLeaf wDup benignClient soDup "test-stem" "1.0.0" none =
      ({ db := wDup.db, alive := 99 :: wDup.alive },
       [.spawnProcess 99, .bindLeafCall stemWithDup.haproxyBackend soDup.leafId "localhost" 8001],
       .error ("leaf started, but failed to save to repository: " ++
         "leaf dup already exists in stem test-stem version 1.0.0")) :=
  (C4_persist_failure_returns_without_cleanup wDup benignClient soDup "test-stem"
    "1.0.0" 8001 99 stemWithDup
    "leaf dup already exists in stem test-stem version 1.0.0"
    (by decide) (by decide) (by decide) (by decide)).1 (by decide)

/-- C3 counterexample: the stem holds one running leaf whose process is already gone,
so its parallel stop fails. UnregisterStem returns the stop error after the stop was
awaited, but contrary to the claim it performs no UnbindStem call and no catalog
delete: the world is unchanged and the stem is still registered. -/
theorem C3_counterexample_unbind_skipped_on_stop_error :
    unregisterStem wDeadLeaf benignClient keyTest =
      (wDeadLeaf,
       [.stopLeafCall "test-stem" "1.0.0" "leaf1", .unbindLeafCall "/test" "leaf1"],
       .error "failed to stop leafs for stem test-stem version 1.0.0: failed to kill process with PID 42: os: process already finished") ∧
    (∀ b, CEvent.unbindStemCall b ∉ (unregisterStem wDeadLeaf benignClient keyTest).2.1) ∧
    lookupA (unregisterStem wDeadLeaf benignClient keyTest).1.db keyTest =
      some stemWithLeaf := by
  refine ⟨by decide, ?_, by decide⟩
  intro b h
  have hlist : (unregisterStem wDeadLeaf benignClient keyTest).2.1 =
      [.stopLeafCall "test-stem" "1.0.0" "leaf1", .unbindLeafCall "/test" "leaf1"] := by
    decide
  rw [hlist] at h
  simp at h

/-- C3 amended: when any of the parallel StopLeaf calls of UnregisterStem fails, the
stop error is returned only after every snapshot leaf received its StopLeaf call, but
the HAProxy unbind and the catalog delete are skipped: no UnbindStem event is emitted
and the stem is still present in the catalog. -/
theorem C3_stop_error_skips_unbind_and_delete (w : World) (co : ClientOracle)
    (key : StemKey) (stem : Stem) (leafs : List Leaf) (w1 : World)
    (evs : List CEvent) (e : String)
    (hfetch : fetchStem w.db key = .ok stem)
    (hleafs : getRunningLeafs w.db key = .ok leafs)
    (hstop : stopAll w co key leafs = (w1, evs, some e)) :
    unregisterStem w co key =
      (w1, evs, .error ("failed to stop leafs for stem " ++ key.name ++ " version " ++
        key.version ++ ": " ++ e)) ∧
    (∀ leaf ∈ leafs, CEvent.stopLeafCall key.name key.version leaf.id ∈ evs) ∧
    (∀ b, CEvent.unbindStemCall b ∉ evs) ∧
    (lookupA w1.db key).isSome := by
  have hkey : (lookupA w.db key).isSome := by
    unfold fetchStem at hfetch
    cases hs : lookupA w.db key with
    | none => rw [hs] at hfetch; exact absurd hfetch (by simp)
    | some s => simp
  refine ⟨?_, ?_, ?_, ?_⟩
  · simp [unregisterStem, hfetch, hleafs, hstop]
  · intro leaf hmem
    have := stopAll_emits_all_calls co key leafs w leaf hmem
    rw [hstop] at this
    exact this
  · intro b
    have := stopAll_no_unbindStem co key leafs w b
    rw [hstop] at this
    exact this
  · have := stopAll_preserves_key co key leafs w key hkey
    rw [hstop] at this
    exact this

/-- C3 witness: the amended UnregisterStem theorem instantiated at the dead-PID
world, whose single running leaf fails to stop. -/
theorem C3_stop_error_skips_unbind_and_delete_witness :
    unregisterStem wDeadLeaf benignClient keyTest =
      ((wDeadLeaf : World),
       ([.stopLeafCall "test-stem" "1.0.0" "leaf1",
         .unbindLeafCall "/test" "leaf1"] : List CEvent),
       .error ("failed to stop leafs for stem " ++ keyTest.name ++ " version " ++
         keyTest.version ++
         ": failed to kill process with PID 42: os: process already finished")) ∧
    (lookupA wDeadLeaf.db keyTest).isSome :=
  let h := C3_stop_error_skips_unbind_and_delete wDeadLeaf benignClient keyTest
    stemWithLeaf [leaf1] wDeadLeaf
    [.stopLeafCall "test-stem" "1.0.0" "leaf1", .unbindLeafCall "/test" "leaf1"]
    "failed to kill process with PID 42: os: process already finished"
    (by decide) (by decide) (by decide)
  ⟨h.1, h.2.2.2⟩

end Herbarium

namespace Herbarium

/-- C9 counterexample: two requests entering the graft handler of the idle seed stem,
fully serialised (the best schedule that the claimed per-stem mutex could enforce),
both succeed with proxied responses: each one starts its own real leaf and performs
its own HAProxy replace, so the stem ends with two leaves and the combined trace holds
two ReplaceLeaf events, refuting the single-flight behavior (exactly one real leaf and
exactly one replace). -/
theorem C9_counterexample_two_requests_two_leaves :
    (graftHandler wGraft benignClient soReq1 stemGraft gidTest).2.2 = .proxied 8001 ∧
    (graftHandler wGraft benignClient soReq1 stemGraft gidTest).2.1 =
      [.spawnProcess 11, .replaceLeafCall "/test" gidTest "L1" "localhost" 8001] ∧
    (graftHandler (graftHandler wGraft benignClient soReq1 stemGraft gidTest).1
        benignClient soReq2 stemGraft gidTest).2.2 = .proxied 8002 ∧
    (graftHandler (graftHandler wGraft benignClient soReq1 stemGraft gidTest).1
        benignClient soReq2 stemGraft gidTest).2.1 =
      [.spawnProcess 12, .replaceLeafCall "/test" gidTest "L2" "localhost" 8002] ∧
    (lookupA (graftHandler (graftHandler wGraft benignClient soReq1 stemGraft gidTest).1
        benignClient soReq2 stemGraft gidTest).1.db keyTest).map
      (fun s => s.leafInstances.length) = some 2 := by
  decide

/-- C9 amended: every request that enters the graft handler runs the full cold-start
body, because there is no per-stem mutex and no check whether the graft node was
already cleared: whenever the embedded StartLeaf steps succeed, the handler emits
exactly one ReplaceLeaf event of its own, appends its own new leaf to LeafInstances,
clears the graft node field, and proxies the request (it answers 500, never 503, on
failure). -/
theorem C9_each_request_runs_full_cold_start (w : World) (co : ClientOracle)
    (so : StartOracle) (stem stemCur : Stem) (gid : String) (p pid : Nat)
    (hport : so.port = some p)
    (hstem : lookupA w.db { name := stem.name, version := stem.version } = some stemCur)
    (hfresh : lookupA stemCur.leafInstances so.leafId = none)
    (hspawn : so.spawn = .ok pid)
    (hrep : co.replaceLeafErr stemCur.haproxyBackend gid so.leafId p = none) :
    (graftHandler w co so stem gid).2.1 =
      [.spawnProcess pid,
       .replaceLeafCall stemCur.haproxyBackend gid so.leafId "localhost" p] ∧
    (graftHandler w co so stem gid).2.2 = .proxied p ∧
    lookupA (graftHandler w co so stem gid).1.db
        { name := stem.name, version := stem.version } =
      some { stemCur with
             leafInstances := stemCur.leafInstances ++
               [(so.leafId, { id := so.leafId, pid := pid, haproxyServer := so.leafId,
                              port := p, status := .running, initialized := 0 })],
             graftNodeLeaf := none } := by
  have hadd : addLeaf w.db { name := stem.name, version := stem.version }
      so.leafId so.leafId pid p 0 =
      .ok (updateA w.db { name := stem.name, version := stem.version }
        { stemCur with leafInstances := stemCur.leafInstances ++
          [(so.leafId, { id := so.leafId, pid := pid, haproxyServer := so.leafId,
                         port := p, status := .running, initialized := 0 })] }) := by
    simp [addLeaf, hstem, hfresh]
  have hstem2 : lookupA (updateA w.db { name := stem.name, version := stem.version }
      { stemCur with leafInstances := stemCur.leafInstances ++
        [(so.leafId, { id := so.leafId, pid := pid, haproxyServer := so.leafId,
                       port := p, status := .running, initialized := 0 })] })
      { name := stem.name, version := stem.version } =
      some { stemCur with leafInstances := stemCur.leafInstances ++
        [(so.leafId, { id := so.leafId, pid := pid, haproxyServer := so.leafId,
                       port := p, status := .running, initialized := 0 })] } := by
    rw [lookupA_updateA]
    simp [hstem]
  have hfind : lookupA ({ stemCur with leafInstances := stemCur.leafInstances ++
      [(so.leafId, { id := so.leafId, pid := pid, haproxyServer := so.leafId,
                     port := p, status := .running, initialized := 0 })] } : Stem).leafInstances
      so.leafId =
      some { id := so.leafId, pid := pid, haproxyServer := so.leafId,
             port := p, status := .running, initialized := 0 } := by
    simp only [lookupA_append, hfresh]
    simp [lookupA]
  refine ⟨?_, ?_, ?_⟩ <;>
    simp [graftHandler, startLeaf, fetchStem, findLeafByID, clearGraftNode,
      hport, hstem, hspawn, hrep, hadd, hstem2, hfind, lookupA_updateA]

/-- C9 witness: the amended handler theorem instantiated at the idle seed stem and
the first request. -/
theorem C9_each_request_runs_full_cold_start_witness :
    (graftHandler wGraft benignClient soReq1 stemGraft gidTest).2.2 = .proxied 8001 :=
  (C9_each_request_runs_full_cold_start wGraft benignClient soReq1 stemGraft stemGraft
    gidTest 8001 11 (by decide) (by decide) (by decide) (by decide) (by decide)).2.1

/-- C10: ReplaceStem mutates the record in place and never re-keys the catalog entry.
Whenever the key is present, the re-keyed entry (name, newVersion) is absent, and the
new version differs from the old one, ReplaceStem succeeds, the stem is still stored
under the original key with Version equal to newVersion (hence different from the key
version) and Config equal to newConfig, every other field is unchanged, and FindStem
on (name, newVersion) fails with the not-found error. -/
theorem C10_replaceStem_in_place (db : HerbariumDB) (key : StemKey)
    (newVersion : String) (newConfig : StemConfig) (stem : Stem)
    (hstem : lookupA db key = some stem)
    (hfresh : lookupA db { name := key.name, version := newVersion } = none)
    (hver : newVersion ≠ key.version) :
    replaceStem db key newVersion newConfig =
      .ok (updateA db key { stem with version := newVersion, config := newConfig }) ∧
    findStem (updateA db key { stem with version := newVersion, config := newConfig })
      key = .ok { stem with version := newVersion, config := newConfig } ∧
    ({ stem with version := newVersion, config := newConfig } : Stem).version ≠
      key.version ∧
    findStem (updateA db key { stem with version := newVersion, config := newConfig })
      { name := key.name, version := newVersion } =
      .error ("stem " ++ key.name ++ " with version " ++ newVersion ++ " not found") ∧
    ({ stem with version := newVersion, config := newConfig } : Stem).name = stem.name ∧
    ({ stem with version := newVersion, config := newConfig } : Stem).type = stem.type ∧
    ({ stem with version := newVersion, config := newConfig } : Stem).workingURL =
      stem.workingURL ∧
    ({ stem with version := newVersion, config := newConfig } : Stem).haproxyBackend =
      stem.haproxyBackend ∧
    ({ stem with version := newVersion, config := newConfig } : Stem).environment =
      stem.environment ∧
    ({ stem with version := newVersion, config := newConfig } : Stem).leafInstances =
      stem.leafInstances ∧
    ({ stem with version := newVersion, config := newConfig } : Stem).graftNodeLeaf =
      stem.graftNodeLeaf ∧
    ({ stem with version := newVersion, config := newConfig } : Stem).config =
      newConfig := by
  have hkeyne : ({ name := key.name, version := newVersion } : StemKey) ≠ key := by
    intro h
    exact hver (congrArg StemKey.version h)
  refine ⟨?_, ?_, hver, ?_, rfl, rfl, rfl, rfl, rfl, rfl, rfl, rfl⟩
  · simp [replaceStem, hstem]
  · rw [findStem, lookupA_updateA]
    simp [hstem]
  · rw [findStem, lookupA_updateA]
    simp [hkeyne, hfresh]

/-- C10 witness: ReplaceStem instantiated at a one-entry catalog holding the leaf1
stem, moving it from version 1.0.0 to 2.0.0. -/
theorem C10_replaceStem_in_place_witness :
    replaceStem [(keyTest, stemWithLeaf)] keyTest "2.0.0" cfgTest =
      .ok (updateA [(keyTest, stemWithLeaf)] keyTest
        { stemWithLeaf with version := "2.0.0", config := cfgTest }) ∧
    findStem (updateA [(keyTest, stemWithLeaf)] keyTest
        { stemWithLeaf with version := "2.0.0", config := cfgTest })
      { name := keyTest.name, version := "2.0.0" } =
      .error ("stem " ++ keyTest.name ++ " with version " ++ "2.0.0" ++ " not found") :=
  let h := C10_replaceStem_in_place [(keyTest, stemWithLeaf)] keyTest "2.0.0" cfgTest
    stemWithLeaf (by decide) (by decide) (by decide)
  ⟨h.1, h.2.2.2.1⟩

end Herbarium

namespace Herbarium

/-- Fixture environment for the middleware counterexample: version fetch and
transaction start succeed, the commit fails. -/
def envCommitFails : TxEnv :=
  { versionRes := .ok 1
    startTxRes := fun _ => .ok "tx1"
    commitRes := fun _ => some "commit failed"
    rollbackRes := fun _ => none }

/-- C2 counterexample: with a succeeding closure and a failing commit, the wrapped
operation still returns success. The commit was attempted and failed (the event
records the failure result), yet the middleware discards that error instead of
returning it, refuting the final clause of the claim. -/
theorem C2_counterexample_commit_error_swallowed :
    runMiddleware envCommitFails (fun _ => .ok ()) =
      ([.getVersionEv (.ok 1), .startTxEv 1 (.ok "tx1"), .nextEv "tx1",
        .commitEv "tx1" (some "commit failed")],
       .ok ()) ∧
    envCommitFails.commitRes "tx1" = some "commit failed" := by
  decide

/-- C2 amended: the wrapped operation calls GetVersion, then StartTx(version), then
next(tx); on exit it commits exactly when next returned success and rolls back
otherwise; it returns the first error among version fetch, transaction start, and the
user closure; commit and rollback failures are logged and discarded, so the returned
result never depends on the commit or rollback outcome (in particular a failing
commit after a successful closure still yields success). -/
theorem C2_middleware_contract (env : TxEnv) (next : String → Except String Unit) :
    (∀ e, env.versionRes = .error e →
      runMiddleware env next =
        ([.getVersionEv (.error e)],
         .error ("failed to retrieve configuration version: " ++ e))) ∧
    (∀ v e, env.versionRes = .ok v → env.startTxRes v = .error e →
      runMiddleware env next =
        ([.getVersionEv (.ok v), .startTxEv v (.error e)],
         .error ("failed to start transaction: " ++ e))) ∧
    (∀ v tx e, env.versionRes = .ok v → env.startTxRes v = .ok tx →
      next tx = .error e →
      runMiddleware env next =
        ([.getVersionEv (.ok v), .startTxEv v (.ok tx), .nextEv tx,
          .rollbackEv tx (env.rollbackRes tx)],
         .error e)) ∧
    (∀ v tx, env.versionRes = .ok v → env.startTxRes v = .ok tx → next tx = .ok () →
      runMiddleware env next =
        ([.getVersionEv (.ok v), .startTxEv v (.ok tx), .nextEv tx,
          .commitEv tx (env.commitRes tx)],
         .ok ())) ∧
    (∀ c r, (runMiddleware { env with commitRes := c, rollbackRes := r } next).2 =
      (runMiddleware env next).2) := by
  refine ⟨?_, ?_, ?_, ?_, ?_⟩
  · intro e h
    simp [runMiddleware, h]
  · intro v e hv hs
    simp [runMiddleware, hv, hs]
  · intro v tx e hv hs hn
    simp [runMiddleware, hv, hs, hn]
  · intro v tx hv hs hn
    simp [runMiddleware, hv, hs, hn]
  · intro c r
    obtain ⟨vr, str, cr, rr⟩ := env
    cases vr with
    | error e => rfl
    | ok v =>
        cases hst : str v with
        | error e => simp [runMiddleware, hst]
        | ok tx =>
            cases hn : next tx with
            | error e => simp [runMiddleware, hst, hn]
            | ok u => simp [runMiddleware, hst, hn]

/-- C2 witness: the amended middleware contract instantiated at the failing-commit
environment with a succeeding closure: the run commits and returns success. -/
theorem C2_middleware_contract_witness :
    runMiddleware envCommitFails (fun _ => .ok ()) =
      ([.getVersionEv (.ok 1), .startTxEv 1 (.ok "tx1"), .nextEv "tx1",
        .commitEv "tx1" (envCommitFails.commitRes "tx1")],
       .ok ()) :=
  (C2_middleware_contract envCommitFails (fun _ => .ok ())).2.2.2.1 1 "tx1"
    rfl rfl rfl

/-- C6: ReplaceLeaf runs DeleteServer(old) then AddServer(new) under the one
transaction id minted by a single StartTx, and one commit covers both operations
(first conjunct, fault-free run: the event trace is exactly GetVersion, StartTx,
Delete, Add, Commit, all on the same id, and the committed configuration changes to
the delete-then-add result only at the commit). When either driver call fails
(second and third conjuncts) the transaction is rolled back and the committed
configuration is unchanged, so neither change becomes visible. -/
theorem C6_replaceLeaf_single_transaction (st : HAState)
    (backend oldServer newServer address : String) (port : Nat) :
    (replaceLeafTx noFaults st backend oldServer newServer address port =
      ({ committed := confAddServer (confDeleteServer st.committed backend oldServer)
           backend newServer (address ++ ":" ++ toString port),
         txs := removeA ((txName st.counter, st.committed) :: st.txs) (txName st.counter),
         counter := st.counter + 1,
         version := st.version + 1 },
       [.dGetVersion st.version, .dStartTx (txName st.counter),
        .dDelete backend oldServer (txName st.counter),
        .dAdd backend newServer (address ++ ":" ++ toString port) (txName st.counter),
        .dCommit (txName st.counter)],
       .ok ())) ∧
    (∀ faults e, faults.versionFault = none → faults.startTxFault = none →
      faults.deleteFault backend oldServer = some e →
      (replaceLeafTx faults st backend oldServer newServer address port).1.committed =
        st.committed ∧
      (replaceLeafTx faults st backend oldServer newServer address port).2.1 =
        [.dGetVersion st.version, .dStartTx (txName st.counter),
         .dDelete backend oldServer (txName st.counter), .dRollback (txName st.counter)] ∧
      (replaceLeafTx faults st backend oldServer newServer address port).2.2 =
        .error ("failed to remove old leaf service: " ++
          ("failed to delete server " ++ oldServer ++ " from backend " ++ backend ++
            ": " ++ e))) ∧
    (∀ faults e, faults.versionFault = none → faults.startTxFault = none →
      faults.deleteFault backend oldServer = none →
      faults.addFault backend newServer = some e →
      (replaceLeafTx faults st backend oldServer newServer address port).1.committed =
        st.committed ∧
      (replaceLeafTx faults st backend oldServer newServer address port).2.1 =
        [.dGetVersion st.version, .dStartTx (txName st.counter),
         .dDelete backend oldServer (txName st.counter),
         .dAdd backend newServer (address ++ ":" ++ toString port) (txName st.counter),
         .dRollback (txName st.counter)] ∧
      (replaceLeafTx faults st backend oldServer newServer address port).2.2 =
        .error ("failed to add new leaf service: " ++
          ("failed to add server to backend: " ++ e))) := by
  refine ⟨?_, ?_, ?_⟩
  · simp [replaceLeafTx, runTxS, driverDeleteServer, driverAddServer, noFaults]
  · intro faults e hv hs hd
    refine ⟨?_, ?_, ?_⟩ <;>
      simp [replaceLeafTx, runTxS, driverDeleteServer, driverAddServer, hv, hs, hd]
  · intro faults e hv hs hd ha
    refine ⟨?_, ?_, ?_⟩ <;>
      simp [replaceLeafTx, runTxS, driverDeleteServer, driverAddServer, hv, hs, hd, ha]

/-- Driver-fault fixture where deleting the old server fails. -/
def deleteFaultsFixture : DriverFaults :=
  { noFaults with deleteFault := fun _ _ => some "boom" }

/-- Initial driver state fixture with one backend holding the old server. -/
def stFixture : HAState :=
  { committed := [("b", [("old", "localhost:9000")])], txs := [], counter := 0,
    version := 3 }

/-- C6 witness: the transactional ReplaceLeaf theorem instantiated at the one-backend
state, in the fault-free case and in the failing-delete case. -/
theorem C6_replaceLeaf_single_transaction_witness :
    (replaceLeafTx noFaults stFixture "b" "old" "new" "localhost" 8000).2.2 = .ok () ∧
    (replaceLeafTx deleteFaultsFixture stFixture "b" "old" "new" "localhost"
      8000).1.committed = stFixture.committed :=
  let h := C6_replaceLeaf_single_transaction stFixture "b" "old" "new" "localhost" 8000
  ⟨by rw [h.1], (h.2.1 deleteFaultsFixture "boom" rfl rfl rfl).1⟩

end Herbarium
